import Mathlib

/-!
Verification of the raw CCIR 601 YUV coder (coders/yuv.c).

The definitions below are a shallow embedding of the pieces of
ReadYUVImage and WriteYUVImage that the verified properties speak
about: the sampling-factor validity check, the effective-layout
selection, the per-sample codec, the non-interlaced scanline reader
and writer, the planar chroma reader, the chroma merge step, the
depth mutation on encode, and the partition-file stream sequencing.
Pixels are modelled as triples of channel samples; the red channel
carries luma (Y), green carries U and blue carries V, exactly as the
coder uses SetPixelRed / SetPixelGreen / SetPixelBlue.
-/

namespace YUV

/-- Interlace modes relevant to the YUV coder (values of InterlaceType
that ReadYUVImage and WriteYUVImage distinguish). -/
inductive Interlace where
  | undefinedInterlace
  | noInterlace
  | planeInterlace
  | partitionInterlace
deriving DecidableEq, Repr

/-- A pixel as the coder sees it through the pixel accessors: the red
channel stores the luma sample, green stores U, blue stores V. -/
structure Pixel where
  red : Nat
  green : Nat
  blue : Nat
deriving DecidableEq, Repr

/-! ## Sampling factors (yuv.c lines 147-166 and 587-606)

Both ReadYUVImage and WriteYUVImage default the factors to 2:2, copy
the horizontal value to the vertical one when no sigma value was
parsed, and then run the same validity test before throwing
UnexpectedSamplingFactor.  The parsed geometry is modelled as an
optional pair: no sampling string, a lone horizontal value, or both
values. -/

/-- Default factors and the sigma-flag fallback, as in both coders:
horizontal_factor = 2 and vertical_factor = 2 when no sampling string
is given, and vertical_factor = horizontal_factor when the string has
no sigma component. -/
def resolveSamplingFactors : Option (Nat × Option Nat) → Nat × Nat
  | none => (2, 2)
  | some (h, none) => (h, h)
  | some (h, some v) => (h, v)

/-- The exact condition under which yuv.c throws
UnexpectedSamplingFactor, a conjunction of all four disequalities:
(horizontal_factor != 1) && (horizontal_factor != 2) &&
(vertical_factor != 1) && (vertical_factor != 2). -/
def samplingFactorInvalid (h v : Nat) : Bool :=
  (h != 1) && (h != 2) && (v != 1) && (v != 2)

/-- Sampling-factor resolution followed by the validity test, shared
verbatim by ReadYUVImage and WriteYUVImage; this runs before any
OpenBlob call. -/
def samplingSetup (sf : Option (Nat × Option Nat)) : Except String (Nat × Nat) :=
  let hv := resolveSamplingFactors sf
  if samplingFactorInvalid hv.1 hv.2 then Except.error "UnexpectedSamplingFactor"
  else Except.ok hv

/-! ## Layout selection (yuv.c lines 168-174 and 608-614) -/

/-- Effective layout from the declared interlace and the vertical
factor, as computed identically in ReadYUVImage and WriteYUVImage:
when the declared interlace is undefined, or declared NoInterlace
while the vertical factor is 2, the interlace becomes NoInterlace and
is then overwritten with PlaneInterlace when the vertical factor is 2;
otherwise the declared value passes through. -/
def layoutSelector (interlace : Interlace) (verticalFactor : Nat) : Interlace :=
  if interlace = Interlace.undefinedInterlace ∨
      (interlace = Interlace.noInterlace ∧ verticalFactor = 2) then
    if verticalFactor = 2 then Interlace.planeInterlace else Interlace.noInterlace
  else interlace

/-! ## Sample codec

Modelled from the spec: the scaling macros ScaleCharToQuantum,
ScaleShortToQuantum, ScaleQuantumToChar and ScaleQuantumToShort live
in MagickCore/quantum-private.h, which is not part of this repository
snapshot.  Following section 4.3 of the spec, samples are linearly
rescaled between the byte range and the internal full-range (16-bit)
representation, exactly invertibly for values that originated from
the given byte width. -/

/-- Modelled from the spec: ScaleCharToQuantum rescales a byte 0-255
linearly into the internal 16-bit quantum range. -/
def ScaleCharToQuantum (b : Nat) : Nat := 257 * b

/-- Modelled from the spec: ScaleShortToQuantum; the internal range is
the 16-bit range, so this is the identity. -/
def ScaleShortToQuantum (s : Nat) : Nat := s

/-- Modelled from the spec: ScaleQuantumToChar, the rounding inverse
of ScaleCharToQuantum. -/
def ScaleQuantumToChar (q : Nat) : Nat := (q + 128) / 257

/-- Modelled from the spec: ScaleQuantumToShort, identity on the
16-bit internal range. -/
def ScaleQuantumToShort (q : Nat) : Nat := q

/-- Modelled from the spec: WriteBlobShort emits two big-endian bytes,
most significant first. -/
def writeBlobShortBytes (v : Nat) : List Nat := [v / 256 % 256, v % 256]

/-- One sample taken from the byte cursor, per the decode branches of
yuv.c: a single byte through ScaleCharToQuantum when quantum is 1,
otherwise two bytes combined as ((p0 << 8) | p1) through
ScaleShortToQuantum, advancing the cursor accordingly. -/
def takeSample (quantum : Nat) (p : List Nat) : Nat × List Nat :=
  if quantum = 1 then (ScaleCharToQuantum (p.headD 0), p.tail)
  else (ScaleShortToQuantum ((p.headD 0 <<< 8) ||| p.tail.headD 0), p.tail.tail)

/-- SampleCodec decode direction: the value stored for a sample whose
on-stream bytes are given, at the given sample width. -/
def decodeSample (quantum : Nat) (bytes : List Nat) : Nat :=
  (takeSample quantum bytes).1

/-- SampleCodec encode direction, as the luma write path of
WriteYUVImage emits it: one byte through ScaleQuantumToChar when
quantum is 1, else WriteBlobShort of ScaleQuantumToShort. -/
def encodeSample (quantum sample : Nat) : List Nat :=
  if quantum = 1 then [ScaleQuantumToChar sample]
  else writeBlobShortBytes (ScaleQuantumToShort sample)

/-! ## Non-interlaced scanline reader (yuv.c lines 228-281)

The inner loop runs x from 0 in steps of 2 while x < columns, so it
executes ceil(columns / 2) times.  Each iteration consumes four
samples in the order U, Y0, V, Y1: the U sample goes to the green
channel of one chroma pixel, the two luma samples go to the red
channels of two consecutive image pixels (whose green and blue
channels are zeroed), and the V sample goes to the blue channel of
the same chroma pixel (whose red channel is zeroed). -/

/-- One iteration count worth of the non-interlaced decode loop,
returning the luma pixels and chroma pixels produced. -/
def readNonInterlacedIter (quantum : Nat) : Nat → List Nat → List Pixel × List Pixel
  | 0, _ => ([], [])
  | n + 1, p0 =>
    let u := takeSample quantum p0
    let y0 := takeSample quantum u.2
    let v := takeSample quantum y0.2
    let y1 := takeSample quantum v.2
    let rest := readNonInterlacedIter quantum n y1.2
    (⟨y0.1, 0, 0⟩ :: ⟨y1.1, 0, 0⟩ :: rest.1, ⟨0, u.1, v.1⟩ :: rest.2)

/-- One decoded non-interlaced row: the loop header x += 2 bounded by
x < columns yields (columns + 1) / 2 iterations. -/
def readRowNonInterlaced (quantum columns : Nat) (bytes : List Nat) :
    List Pixel × List Pixel :=
  readNonInterlacedIter quantum ((columns + 1) / 2) bytes

/-- Bytes requested from the blob for one non-interlaced row:
ReadBlob(image, 2 * quantum * image->columns, scanline). -/
def rowBytesNonInterlaced (quantum columns : Nat) : Nat := 2 * quantum * columns

/-- Scanline allocation for the non-interlaced layout:
AcquireQuantumMemory(2 * columns + 2, quantum). -/
def scanlineAllocNonInterlaced (quantum columns : Nat) : Nat :=
  (2 * columns + 2) * quantum

/-- A full non-interlaced frame of the given number of rows, first
frame in the stream (the previous-image guard always reads): each row
consumes rowBytesNonInterlaced bytes from the stream cursor.  Returns
the luma rows and the chroma rows. -/
def readNonInterlacedFrame (quantum columns : Nat) :
    Nat → List Nat → List (List Pixel) × List (List Pixel)
  | 0, _ => ([], [])
  | r + 1, stream =>
    let row := readRowNonInterlaced quantum columns
      (stream.take (rowBytesNonInterlaced quantum columns))
    let rest := readNonInterlacedFrame quantum columns r
      (stream.drop (rowBytesNonInterlaced quantum columns))
    (row.1 :: rest.1, row.2 :: rest.2)

/-! ## Chroma image geometry and planar chroma reading -/

/-- Chroma image dimensions from CloneImage(image,
image->columns / horizontal_factor, image->rows / vertical_factor, ...)
at yuv.c lines 203-204 (integer division). -/
def chromaImageDims (columns rows horizontalFactor verticalFactor : Nat) : Nat × Nat :=
  (columns / horizontalFactor, rows / verticalFactor)

/-- One planar row of samples: the U / V plane loops read
quantum * chroma_image->columns bytes and store one sample per chroma
column. -/
def readPlaneRow (quantum : Nat) : Nat → List Nat → List Nat
  | 0, _ => []
  | n + 1, p =>
    let s := takeSample quantum p
    s.1 :: readPlaneRow quantum n s.2

/-- A whole subsampled chroma plane read row by row, as the plane /
partition interlaced chroma loops do. -/
def readChromaPlane (quantum chromaColumns : Nat) :
    Nat → List Nat → List (List Nat)
  | 0, _ => []
  | r + 1, stream =>
    readPlaneRow quantum chromaColumns (stream.take (quantum * chromaColumns)) ::
      readChromaPlane quantum chromaColumns r (stream.drop (quantum * chromaColumns))

/-! ## Non-interlaced scanline writer (yuv.c lines 653-707)

The encode loop header increments x once and the body increments it
again, so the body runs (columns + 1) / 2 times, emitting per
iteration: the green (U) chroma sample, the red (luma) sample of the
first pixel, the blue (V) chroma sample, and the red sample of the
second pixel.  When quantum is 2 the luma samples go through
WriteBlobShort but the chroma samples still go through
WriteBlobByte(ScaleQuantumToChar(...)), one byte each. -/

/-- Iterations of the non-interlaced encode loop over the luma pixel
row and the shared chroma row, producing the emitted bytes. -/
def writeNonInterlacedIter (quantum : Nat) : Nat → List Pixel → List Pixel → List Nat
  | 0, _, _ => []
  | n + 1, ps, ss =>
    let pix0 := ps.headD ⟨0, 0, 0⟩
    let pix1 := (ps.drop 1).headD ⟨0, 0, 0⟩
    let s := ss.headD ⟨0, 0, 0⟩
    (if quantum = 1 then
      [ScaleQuantumToChar s.green, ScaleQuantumToChar pix0.red,
       ScaleQuantumToChar s.blue, ScaleQuantumToChar pix1.red]
    else
      ScaleQuantumToChar s.green :: writeBlobShortBytes (ScaleQuantumToShort pix0.red) ++
        ScaleQuantumToChar s.blue :: writeBlobShortBytes (ScaleQuantumToShort pix1.red)) ++
      writeNonInterlacedIter quantum n (ps.drop 2) (ss.drop 1)

/-- Bytes emitted for one non-interlaced row of the given column
count. -/
def writeRowNonInterlaced (quantum columns : Nat) (lumaRow chromaRow : List Pixel) :
    List Nat :=
  writeNonInterlacedIter quantum ((columns + 1) / 2) lumaRow chromaRow

/-! ## Chroma merge (yuv.c lines 398-415)

After resizing the chroma image to full resolution, the decoder walks
every pixel and copies only the green and blue channels from the
resized chroma pixels into the image; the red (luma) channel is never
written in this loop. -/

/-- The per-pixel merge: green and blue come from the resized chroma
pixel, red is left as the image pixel already has it. -/
def mergePixel (q c : Pixel) : Pixel := ⟨q.red, c.green, c.blue⟩

/-- One merged row. -/
def mergeChromaRow (qRow cRow : List Pixel) : List Pixel :=
  List.zipWith mergePixel qRow cRow

/-- The full merge over all rows of the image and the resized chroma
image. -/
def mergeChroma (img chroma : List (List Pixel)) : List (List Pixel) :=
  List.zipWith mergeChromaRow img chroma

/-- Pixel lookup by row and column, as an Option. -/
def pixAt (m : List (List Pixel)) (y x : Nat) : Option Pixel :=
  m[y]?.bind fun row => row[x]?

/-! ## Depth mutation on encode (yuv.c lines 587 and 637) -/

/-- Image metadata the encoder mutates. -/
structure ImgMeta where
  columns : Nat
  rows : Nat
  depth : Nat
deriving DecidableEq, Repr

/-- quantum = image->depth <= 8 ? 1 : 2, computed once at the top of
WriteYUVImage. -/
def quantumOfDepth (depth : Nat) : Nat := if depth ≤ 8 then 1 else 2

/-- The per-frame mutation image->depth = quantum == 1 ? 8 : 16
performed at the top of the encode loop, before the working copies
are resized. -/
def writeFrameDepthUpdate (img : ImgMeta) (quantum : Nat) : ImgMeta :=
  { img with depth := if quantum = 1 then 8 else 16 }

/-- The encoder entry followed by the first-frame depth mutation. -/
def writeFrameMutatedDepth (img : ImgMeta) : ImgMeta :=
  writeFrameDepthUpdate img (quantumOfDepth img.depth)

/-! ## Partition stream sequencing on encode

AppendImageFormat and CopyMagickString live outside this repository
snapshot, so the filename handling is modelled from the spec: the
partition stream names are the base filename with the channel suffix
appended directly (frame.yuvY, frame.yuvU, frame.yuvV), and a later
append replaces the previous channel suffix, while CopyMagickString
restores the bare base name. -/

/-- A filename as base plus optional channel suffix. -/
structure BlobName where
  base : String
  suffix : Option String
deriving DecidableEq, Repr

/-- Modelled from the spec: AppendImageFormat sets the channel suffix
of the filename. -/
def appendImageFormat (fmt : String) (f : BlobName) : BlobName := ⟨f.base, some fmt⟩

/-- The rendered stream name. -/
def renderBlobName (f : BlobName) : String := f.base ++ f.suffix.getD ""

/-- Observable stream events of the encode sequencer. -/
inductive StreamEv where
  | openStream (name : String)
  | closeStream
  | restoreName
deriving DecidableEq, Repr

/-- Events of one partition-interlaced frame after its Y plane has
been written to the already-open stream: CloseBlob, append U and open,
(write the U plane), CloseBlob, append V and open, (write the V
plane), then CopyMagickString restores the original filename.  Returns
the events and the filename state left for the next frame. -/
def writePartitionFrameTail (origName : String) (f : BlobName) :
    List StreamEv × BlobName :=
  let fU := appendImageFormat "U" f
  let fV := appendImageFormat "V" fU
  ([StreamEv.closeStream, StreamEv.openStream (renderBlobName fU),
    StreamEv.closeStream, StreamEv.openStream (renderBlobName fV),
    StreamEv.restoreName],
   ⟨origName, none⟩)

/-- The encode do-loop over the given number of frames under
PartitionInterlace: each frame writes its Y plane to whatever stream
is currently open (no open event) and then runs the frame tail. -/
def writePartitionLoop (origName : String) : Nat → BlobName → List StreamEv
  | 0, _ => []
  | n + 1, f =>
    let t := writePartitionFrameTail origName f
    t.1 ++ writePartitionLoop origName n t.2

/-- The whole partition-interlaced encode event trace: before the
frame loop, AppendImageFormat("Y") and a single OpenBlob; then the
frame loop. -/
def writePartitionTrace (frames : Nat) (base : String) : List StreamEv :=
  StreamEv.openStream (renderBlobName (appendImageFormat "Y" ⟨base, none⟩)) ::
    writePartitionLoop base frames (appendImageFormat "Y" ⟨base, none⟩)

/-- The names carried by the open events of a trace, in order. -/
def openNames : List StreamEv → List String
  | [] => []
  | StreamEv.openStream n :: rest => n :: openNames rest
  | StreamEv.closeStream :: rest => openNames rest
  | StreamEv.restoreName :: rest => openNames rest

/-! ## Helper lemmas -/

/-- Combining a high byte shifted left by 8 with a low byte below 256
is plain positional arithmetic. -/
lemma shiftLeft_or_eq_add (hi lo : Nat) (h : lo < 256) :
    (hi <<< 8) ||| lo = 256 * hi + lo := by
  have h2 : lo < 2 ^ 8 := by simpa using h
  calc (hi <<< 8) ||| lo = (hi * 2 ^ 8) ||| lo := by rw [Nat.shiftLeft_eq]
    _ = (2 ^ 8 * hi) ||| lo := by rw [Nat.mul_comm]
    _ = 2 ^ 8 * hi + lo := (Nat.mul_add_lt_is_or h2 hi).symm
    _ = 256 * hi + lo := by norm_num

/-- The non-interlaced decode loop yields two luma pixels and one
chroma pixel per iteration. -/
lemma readNonInterlacedIter_lengths (quantum : Nat) :
    ∀ (n : Nat) (p : List Nat),
      (readNonInterlacedIter quantum n p).1.length = 2 * n ∧
      (readNonInterlacedIter quantum n p).2.length = n := by
  intro n
  induction n with
  | zero => intro p; simp [readNonInterlacedIter]
  | succ n ih =>
    intro p
    simp only [readNonInterlacedIter, List.length_cons]
    have h := ih (takeSample quantum (takeSample quantum (takeSample quantum
      (takeSample quantum p).2).2).2).2
    omega

/-- A planar row always carries exactly the requested number of
samples. -/
lemma readPlaneRow_length (quantum : Nat) :
    ∀ (n : Nat) (p : List Nat), (readPlaneRow quantum n p).length = n := by
  intro n
  induction n with
  | zero => intro p; rfl
  | succ n ih => intro p; simp [readPlaneRow, ih]

/-- A planar chroma plane has the requested number of rows, each of
the requested number of columns. -/
lemma readChromaPlane_shape (quantum c : Nat) :
    ∀ (r : Nat) (s : List Nat),
      (readChromaPlane quantum c r s).length = r ∧
      ∀ row ∈ readChromaPlane quantum c r s, row.length = c := by
  intro r
  induction r with
  | zero => intro s; simp [readChromaPlane]
  | succ r ih =>
    intro s
    refine ⟨by simp [readChromaPlane, (ih _).1], ?_⟩
    intro row hrow
    rcases List.mem_cons.mp hrow with h | h
    · rw [h]; exact readPlaneRow_length quantum c _
    · exact (ih _).2 row h

/-- The partition-interlaced encode loop contributes, for every frame,
the same close / open U / close / open V / restore block, built from
the base of the current filename, which is the original base
throughout. -/
lemma writePartitionLoop_eq (base : String) :
    ∀ (n : Nat) (f : BlobName), f.base = base →
      writePartitionLoop base n f =
        (List.replicate n [StreamEv.closeStream, StreamEv.openStream (base ++ "U"),
          StreamEv.closeStream, StreamEv.openStream (base ++ "V"),
          StreamEv.restoreName]).flatten := by
  intro n
  induction n with
  | zero => intro f hf; simp [writePartitionLoop]
  | succ n ih =>
    intro f hf
    have hrec := ih ⟨base, none⟩ rfl
    simp [writePartitionLoop, writePartitionFrameTail, renderBlobName,
      appendImageFormat, hf, hrec, List.replicate_succ]

/-! ## Claim theorems -/

/-- C1: the sampling-factor check of yuv.c only raises
UnexpectedSamplingFactor when BOTH axes are outside 1..2, because the
four disequalities are joined with logical AND.  At horizontal = 4,
vertical = 1 the horizontal axis is outside of 1..2 and yet the setup
succeeds with no error, contradicting the claim that either axis
outside 1..2 fails; only when both axes are outside (3 and 5) does
the error fire. -/
theorem c1_sampling_check_requires_both_axes_invalid :
    samplingSetup (some (4, some 1)) = Except.ok (4, 1) ∧
    ¬ ((4 : Nat) = 1 ∨ (4 : Nat) = 2) ∧
    samplingSetup (some (3, some 5)) = Except.error "UnexpectedSamplingFactor" :=
  ⟨rfl, by decide, rfl⟩

/-- C2: in the non-interlaced 16-bit encode path, chroma samples are
emitted through WriteBlobByte, one byte each, while luma samples go
through WriteBlobShort; a 2-column group therefore produces 6 bytes,
not the 8 bytes that the decoder consumes for that group (it reads
2 * quantum * columns bytes per row and parses every sample as two
bytes). -/
theorem c2_nonInterlaced_16bit_write_emits_one_byte_chroma :
    (writeRowNonInterlaced 2 2 [⟨1000, 0, 0⟩, ⟨2000, 0, 0⟩] [⟨0, 3000, 4000⟩]).length = 6 ∧
    rowBytesNonInterlaced 2 2 = 8 := by decide

/-- C3: the effective layout computed identically by ReadYUVImage and
WriteYUVImage matches the seven-case table: Undefined with vertical 1
becomes NoInterlace, Undefined or NoInterlace with vertical 2 become
PlaneInterlace, and every other declared layout passes through
unchanged. -/
theorem c3_layout_selector_table :
    layoutSelector Interlace.undefinedInterlace 1 = Interlace.noInterlace ∧
    layoutSelector Interlace.undefinedInterlace 2 = Interlace.planeInterlace ∧
    layoutSelector Interlace.noInterlace 1 = Interlace.noInterlace ∧
    layoutSelector Interlace.noInterlace 2 = Interlace.planeInterlace ∧
    layoutSelector Interlace.planeInterlace 1 = Interlace.planeInterlace ∧
    layoutSelector Interlace.planeInterlace 2 = Interlace.planeInterlace ∧
    layoutSelector Interlace.partitionInterlace 1 = Interlace.partitionInterlace ∧
    layoutSelector Interlace.partitionInterlace 2 = Interlace.partitionInterlace := by
  decide

/-- C5: the sample codec round-trips exactly: a byte decoded at width
1 re-encodes to the same byte, and a 16-bit value decoded from its two
big-endian bytes at width 2 re-encodes to the same two bytes. -/
theorem c5_sample_codec_roundtrip (b hi lo : Nat)
    (hb : b < 256) (hhi : hi < 256) (hlo : lo < 256) :
    encodeSample 1 (decodeSample 1 [b]) = [b] ∧
    encodeSample 2 (decodeSample 2 [hi, lo]) = [hi, lo] := by
  refine ⟨?_, ?_⟩
  · simp [encodeSample, decodeSample, takeSample, ScaleCharToQuantum, ScaleQuantumToChar]
    omega
  · simp [encodeSample, decodeSample, takeSample, ScaleShortToQuantum,
      ScaleQuantumToShort, writeBlobShortBytes, shiftLeft_or_eq_add hi lo hlo]
    constructor <;> omega

/-- C5 witness: the round-trip theorem instantiated at byte 7 and the
16-bit big-endian byte pair 171, 5. -/
theorem c5_sample_codec_roundtrip_witness :
    (7 : Nat) < 256 ∧ (171 : Nat) < 256 ∧ (5 : Nat) < 256 ∧
    (encodeSample 1 (decodeSample 1 [7]) = [7] ∧
      encodeSample 2 (decodeSample 2 [171, 5]) = [171, 5]) :=
  ⟨by decide, by decide, by decide,
    c5_sample_codec_roundtrip 7 171 5 (by decide) (by decide) (by decide)⟩

/-- C9: WriteYUVImage overwrites the depth of the caller-supplied
image with 8 when the original depth was at most 8 and with 16
otherwise, leaving the dimensions alone. -/
theorem c9_write_mutates_caller_depth (img : ImgMeta) :
    (writeFrameMutatedDepth img).depth = (if img.depth ≤ 8 then 8 else 16) ∧
    (writeFrameMutatedDepth img).columns = img.columns ∧
    (writeFrameMutatedDepth img).rows = img.rows := by
  unfold writeFrameMutatedDepth writeFrameDepthUpdate quantumOfDepth
  by_cases h : img.depth ≤ 8 <;> simp [h]

/-- C4: decoding the 16-byte non-interlaced 8-bit stream of 2 rows by
4 columns (per row U0 Y0 V0 Y1 U1 Y2 V1 Y3) yields the 4 by 2 luma
image with the Y samples in column order per row, and the 2 by 2
chroma image whose green and blue channels carry exactly the
extracted U and V bytes (through the fixed byte-to-quantum scaling),
before any resampling; the chroma allocation for 4 by 2 at factors
2:1 is indeed 2 by 2. -/
theorem c4_nonInterlaced_8bit_scenario :
    readNonInterlacedFrame 1 4 2
        [200, 10, 210, 20, 201, 30, 211, 40,
         100, 50, 110, 60, 101, 70, 111, 80] =
      ([[⟨ScaleCharToQuantum 10, 0, 0⟩, ⟨ScaleCharToQuantum 20, 0, 0⟩,
         ⟨ScaleCharToQuantum 30, 0, 0⟩, ⟨ScaleCharToQuantum 40, 0, 0⟩],
        [⟨ScaleCharToQuantum 50, 0, 0⟩, ⟨ScaleCharToQuantum 60, 0, 0⟩,
         ⟨ScaleCharToQuantum 70, 0, 0⟩, ⟨ScaleCharToQuantum 80, 0, 0⟩]],
       [[⟨0, ScaleCharToQuantum 200, ScaleCharToQuantum 210⟩,
         ⟨0, ScaleCharToQuantum 201, ScaleCharToQuantum 211⟩],
        [⟨0, ScaleCharToQuantum 100, ScaleCharToQuantum 110⟩,
         ⟨0, ScaleCharToQuantum 101, ScaleCharToQuantum 111⟩]]) ∧
    chromaImageDims 4 2 2 1 = (2, 2) := by decide

/-- C6: the chroma planes are allocated at exactly
(columns / horizontal, rows / vertical) samples by integer division,
and a planar chroma plane read at those dimensions has exactly that
many rows, each of exactly that many samples; in particular a 4 by 4
image gives 2 by 2 chroma at factors 2:2 and 2 by 4 chroma at factors
2:1. -/
theorem c6_chroma_plane_allocation (quantum W H h v : Nat) (stream : List Nat) :
    chromaImageDims W H h v = (W / h, H / v) ∧
    (readChromaPlane quantum (chromaImageDims W H h v).1
      (chromaImageDims W H h v).2 stream).length = H / v ∧
    (readChromaPlane quantum (chromaImageDims W H h v).1
      (chromaImageDims W H h v).2 stream).all (fun row => row.length == W / h) = true ∧
    chromaImageDims 4 4 2 2 = (2, 2) ∧
    chromaImageDims 4 4 2 1 = (2, 4) := by
  refine ⟨rfl, (readChromaPlane_shape quantum _ _ _).1, ?_, rfl, rfl⟩
  rw [List.all_eq_true]
  intro row hrow
  exact beq_iff_eq.mpr ((readChromaPlane_shape quantum (W / h) (H / v) stream).2 row hrow)

/-- C7 counterexample: encoding two partition-interlaced frames from
base name frame.yuv opens only five streams, Y U V for the first frame
and then U V for the second, because the Y suffix is appended and
opened once before the frame loop; the second frame therefore does not
get its own Y stream, contradicting the claim that every frame opens
three streams with the Y suffix first. -/
theorem c7_second_frame_has_no_y_open :
    openNames (writePartitionTrace 2 "frame.yuv") =
      ["frame.yuvY", "frame.yuvU", "frame.yuvV", "frame.yuvU", "frame.yuvV"] ∧
    (openNames (writePartitionTrace 2 "frame.yuv")).count "frame.yuvY" = 1 := by
  constructor <;> rfl

/-- C7 amended: the first frame opens exactly the three streams
base Y, base U, base V in that order, each preceded by a close of the
previous stream (after the pre-loop Y open), and the filename is
restored after each frame; every subsequent frame opens only the U and
V streams, its Y plane going to the stream left open from the previous
frame. -/
theorem c7_partition_trace_per_frame (base : String) (n : Nat) :
    writePartitionTrace (n + 1) base =
      StreamEv.openStream (base ++ "Y") ::
        (List.replicate (n + 1) [StreamEv.closeStream,
          StreamEv.openStream (base ++ "U"), StreamEv.closeStream,
          StreamEv.openStream (base ++ "V"), StreamEv.restoreName]).flatten := by
  have h := writePartitionLoop_eq base (n + 1) (appendImageFormat "Y" ⟨base, none⟩) rfl
  simp only [appendImageFormat] at h
  simp [writePartitionTrace, renderBlobName, appendImageFormat, h]

/-- C8: the chroma merge loop only writes the green and blue channels;
whenever the merged image has a pixel at a coordinate, its red (luma)
channel is exactly the red channel the scanline reader stored there,
and its green and blue channels come from the resized chroma image. -/
theorem c8_merge_writes_only_chroma (img ch : List (List Pixel)) (y x : Nat)
    (h : (pixAt (mergeChroma img ch) y x).isSome = true) :
    (pixAt (mergeChroma img ch) y x).map Pixel.red = (pixAt img y x).map Pixel.red ∧
    (pixAt (mergeChroma img ch) y x).map Pixel.green = (pixAt ch y x).map Pixel.green ∧
    (pixAt (mergeChroma img ch) y x).map Pixel.blue = (pixAt ch y x).map Pixel.blue := by
  simp only [pixAt, mergeChroma, List.getElem?_zipWith] at h ⊢
  cases hy1 : img[y]? with
  | none => cases hy2 : ch[y]? <;> simp [hy1, hy2] at h
  | some qrow =>
    cases hy2 : ch[y]? with
    | none => simp [hy1, hy2] at h
    | some crow =>
      simp only [hy1, hy2, Option.some_bind] at h ⊢
      simp only [mergeChromaRow, List.getElem?_zipWith] at h ⊢
      cases hx1 : qrow[x]? with
      | none => cases hx2 : crow[x]? <;> simp [hx1, hx2] at h
      | some qp =>
        cases hx2 : crow[x]? with
        | none => simp [hx1, hx2] at h
        | some cp => simp [hx1, hx2, mergePixel]

/-- C8 witness: the merge theorem instantiated at a one-pixel image
and a one-pixel resized chroma image. -/
theorem c8_merge_writes_only_chroma_witness :
    (pixAt (mergeChroma [[⟨1, 2, 3⟩]] [[⟨4, 5, 6⟩]]) 0 0).isSome = true ∧
    ((pixAt (mergeChroma [[⟨1, 2, 3⟩]] [[⟨4, 5, 6⟩]]) 0 0).map Pixel.red
        = (pixAt [[⟨1, 2, 3⟩]] 0 0).map Pixel.red ∧
      (pixAt (mergeChroma [[⟨1, 2, 3⟩]] [[⟨4, 5, 6⟩]]) 0 0).map Pixel.green
        = (pixAt [[⟨4, 5, 6⟩]] 0 0).map Pixel.green ∧
      (pixAt (mergeChroma [[⟨1, 2, 3⟩]] [[⟨4, 5, 6⟩]]) 0 0).map Pixel.blue
        = (pixAt [[⟨4, 5, 6⟩]] 0 0).map Pixel.blue) :=
  ⟨by decide, c8_merge_writes_only_chroma [[⟨1, 2, 3⟩]] [[⟨4, 5, 6⟩]] 0 0 (by decide)⟩

/-- C10: with an even column count, the non-interlaced decode loop
writes exactly columns luma pixels (the unconditional second luma
write stays within the row queued for columns pixels) and columns / 2
chroma pixels, while the scanline buffer is allocated with exactly
2 * quantum bytes of slack beyond the 2 * quantum * columns bytes read
into it. -/
theorem c10_even_columns_row_writes_in_bounds (quantum columns : Nat)
    (bytes : List Nat) (heven : columns % 2 = 0) :
    (readRowNonInterlaced quantum columns bytes).1.length = columns ∧
    (readRowNonInterlaced quantum columns bytes).2.length = columns / 2 ∧
    scanlineAllocNonInterlaced quantum columns =
      rowBytesNonInterlaced quantum columns + 2 * quantum := by
  have hl := readNonInterlacedIter_lengths quantum ((columns + 1) / 2) bytes
  unfold readRowNonInterlaced scanlineAllocNonInterlaced rowBytesNonInterlaced
  refine ⟨?_, ?_, by ring⟩
  · rw [hl.1]; omega
  · rw [hl.2]; omega

/-- C10 witness: the bounds theorem instantiated at quantum 1 and an
8-byte row of 4 columns. -/
theorem c10_even_columns_row_writes_in_bounds_witness :
    (4 : Nat) % 2 = 0 ∧
    ((readRowNonInterlaced 1 4 [9, 9, 9, 9, 9, 9, 9, 9]).1.length = 4 ∧
      (readRowNonInterlaced 1 4 [9, 9, 9, 9, 9, 9, 9, 9]).2.length = 4 / 2 ∧
      scanlineAllocNonInterlaced 1 4 = rowBytesNonInterlaced 1 4 + 2 * 1) :=
  ⟨by decide,
    c10_even_columns_row_writes_in_bounds 1 4 [9, 9, 9, 9, 9, 9, 9, 9] (by decide)⟩

end YUV
